import Mathlib

/-!
Verification of the citation-manager metadata pipeline
(`agents/citation_manager/engine.py`, `validators.py`, `csl_engine.py`,
`ltm.py`) against its natural-language specification.

Python strings are modelled as `List Char`; `str.lower` / SQLite `LOWER`
are modelled on the ASCII letters (the repository only manipulates ASCII
prefixes such as `doi:` and `https://doi.org/`), `\s`, `str.strip` and
`\d` on the ASCII whitespace and digit classes.  Python values appearing
in metadata mappings (strings, ints, bools, `None`, lists of strings) are
the inductive `Value`; a Python `dict` is an association list, which keeps
the distinction between a missing key and a key stored with value `None`.
Operations whose Python counterpart would raise `TypeError` (for example
calling `.strip()` on a truthy non-string) are given a harmless total
value here; theorems that depend on those fields restrict them to
string-or-`None` values, which is what the pipeline itself produces.
-/

/-- Python strings, modelled as lists of characters. -/
abbrev PyStr := List Char

/-- Coerce a Lean string literal to the `PyStr` model. -/
def pys (s : String) : PyStr := s.data

/-- Python `\s` / `str.strip` whitespace (ASCII part: space, tab, LF, CR, VT, FF),
by code point. -/
def pySpace (c : Char) : Bool :=
  c.toNat = 32 || c.toNat = 9 || c.toNat = 10 || c.toNat = 13 || c.toNat = 11 || c.toNat = 12

/-- Python `str.strip()`: drop whitespace from both ends. -/
def pyStrip (s : PyStr) : PyStr :=
  List.rdropWhile pySpace (List.dropWhile pySpace s)

/-- Python `str.lower()` on one character (ASCII letters only): shift the
code point of an upper-case ASCII letter by 32. -/
def pyLowerChar (c : Char) : Char :=
  if 65 ≤ c.toNat ∧ c.toNat ≤ 90 then Char.ofNat (c.toNat + 32) else c

/-- Python `str.lower()` (ASCII letters only). -/
def pyLower (s : PyStr) : PyStr := s.map pyLowerChar

/-- Python `pat in s` (substring test). -/
def containsSub : PyStr → PyStr → Bool
  | [], pat => List.isPrefixOf pat []
  | c :: t, pat => List.isPrefixOf pat (c :: t) || containsSub t pat

/-- Python `s.replace(pat, rep, 1)`: replace the first occurrence only. -/
def replaceFirst : PyStr → PyStr → PyStr → PyStr
  | [], pat, rep => if List.isPrefixOf pat [] then rep else []
  | c :: t, pat, rep =>
    if List.isPrefixOf pat (c :: t) then rep ++ List.drop pat.length (c :: t)
    else c :: replaceFirst t pat rep

/-- Fuelled worker for `replaceAll`; one unit of fuel per character consumed. -/
def replaceAllGo : Nat → PyStr → PyStr → PyStr → PyStr
  | 0, s, _, _ => s
  | _ + 1, [], _, _ => []
  | fuel + 1, c :: t, pat, rep =>
    if List.isPrefixOf pat (c :: t) ∧ pat ≠ [] then
      rep ++ replaceAllGo fuel (List.drop pat.length (c :: t)) pat rep
    else c :: replaceAllGo fuel t pat rep

/-- Python `s.replace(pat, rep)` with a non-empty pattern. -/
def replaceAll (s pat rep : PyStr) : PyStr := replaceAllGo s.length s pat rep

/-- Part of `s` after the first occurrence of `sep`, if `sep` occurs. -/
def splitAfterAux : PyStr → PyStr → Option PyStr
  | [], _ => Option.none
  | c :: t, sep =>
    if List.isPrefixOf sep (c :: t) then Option.some (List.drop sep.length (c :: t))
    else splitAfterAux t sep

/-- Python `s.split(sep, 1)[-1]`: the part after the first occurrence of
`sep`, or all of `s` when `sep` does not occur. -/
def splitOnceAfter (s sep : PyStr) : PyStr := (splitAfterAux s sep).getD s

/-- Python `re.split(r"[;,]", s)`: split at every `;` or `,`, keeping empty
segments (splitting the empty string yields one empty segment). -/
def splitSep : PyStr → List PyStr
  | [] => [[]]
  | c :: t =>
    if c = ';' ∨ c = ',' then [] :: splitSep t
    else
      match splitSep t with
      | h :: r => (c :: h) :: r
      | [] => [[c]]

/-- The dash alternatives of `engine.py`'s page regex `[-–—‑]`. -/
def pyDashChar (c : Char) : Bool := c = '-' || c = '–' || c = '—' || c = '‑'

/-- State machine for `re.sub(r"\s*[-–—‑]\s*", "-", s)`: `pending` holds (in
reverse) whitespace not yet known to precede a dash; `afterDash` means we
are consuming the `\s*` that follows a replaced dash. -/
def subDashGo : Bool → PyStr → PyStr → PyStr
  | _, pending, [] => pending.reverse
  | afterDash, pending, c :: rest =>
    if pySpace c then
      if afterDash then subDashGo true pending rest
      else subDashGo false (c :: pending) rest
    else if pyDashChar c then '-' :: subDashGo true [] rest
    else pending.reverse ++ (c :: subDashGo false [] rest)

/-- Python `re.sub(r"\s*[-–—‑]\s*", "-", s)` from `normalize_metadata`. -/
def subDash (s : PyStr) : PyStr := subDashGo false [] s

/-- Metadata values: `None`, strings, ints, bools, and lists of strings
(the only lists this pipeline builds are author-name lists). -/
inductive Value where
  | none
  | str (s : PyStr)
  | int (n : Int)
  | bool (b : Bool)
  | list (xs : List PyStr)
deriving DecidableEq

/-- Python truthiness of a `Value`. -/
def truthy : Value → Bool
  | Value.none => false
  | Value.str s => !(s == [])
  | Value.int n => !(n == 0)
  | Value.bool b => b
  | Value.list xs => !(xs == [])

/-- Python `a or b` on values. -/
def pyOrV (a b : Value) : Value := if truthy a then a else b

/-- Python `a or b` on strings. -/
def pyOrS (a b : PyStr) : PyStr := if a = [] then b else a

/-- The string content of a value, for positions where the code applies a
string method; a truthy non-string here would raise in Python (unmodelled),
a falsy one behaves as `""`. -/
def asStrPy : Value → PyStr
  | Value.str s => s
  | _ => []

/-- The list content of a value (used for `authors`). -/
def listOfV : Value → List PyStr
  | Value.list xs => xs
  | _ => []

/-- Is the value a Python list? -/
def isListV : Value → Bool
  | Value.list _ => true
  | _ => false

/-- Is the value a string or `None` (the shapes `doi` / `title` take in this
pipeline; anything else would make the Python code raise)? -/
def isStrOrNone : Value → Bool
  | Value.none => true
  | Value.str _ => true
  | _ => false

/-- The apostrophe character, used by Python `repr` of strings. -/
def quoteCh : Char := Char.ofNat 39

/-- Python `repr` of a string (quoting only; escapes unmodelled). -/
def pyReprStr (s : PyStr) : PyStr := quoteCh :: (s ++ [quoteCh])

/-- Python `str(v)`. -/
def pyStrOf : Value → PyStr
  | Value.none => pys "None"
  | Value.str s => s
  | Value.int n => (toString n).data
  | Value.bool b => if b then pys "True" else pys "False"
  | Value.list xs => '[' :: (List.intercalate (pys ", ") (xs.map pyReprStr) ++ [']'])

/-- Numeric value of an ASCII digit string. -/
def digitsVal (s : PyStr) : Option Nat :=
  if s ≠ [] ∧ s.all Char.isDigit then
    Option.some (s.foldl (fun a c => a * 10 + (c.toNat - 48)) 0)
  else Option.none

/-- Python `int(s)` on a string: optional whitespace and sign, then digits
(ASCII digits; digit-group underscores unmodelled). -/
def parseIntPy (s : PyStr) : Option Int :=
  match pyStrip s with
  | '+' :: ds => (digitsVal ds).map (fun n => (n : Int))
  | '-' :: ds => (digitsVal ds).map (fun n => -(n : Int))
  | ds => (digitsVal ds).map (fun n => (n : Int))

/-- Python `int(v)`: ints and bools convert, strings parse, anything else
raises `TypeError` (modelled as `Option.none`, which `validate` catches). -/
def pyInt : Value → Option Int
  | Value.int n => Option.some n
  | Value.bool b => Option.some (if b then 1 else 0)
  | Value.str s => parseIntPy s
  | _ => Option.none

/-- A Python dict, as an association list (first binding wins). -/
abbrev Dict := List (String × Value)

/-- Dict lookup distinguishing a missing key from a key holding `None`. -/
def lookupV : Dict → String → Option Value
  | [], _ => Option.none
  | (k₁, v) :: rest, k => if k₁ = k then Option.some v else lookupV rest k

/-- Python `d.get(k)`: `None` when the key is missing. -/
def getV (d : Dict) (k : String) : Value := (lookupV d k).getD Value.none

/-- Python `d.get(k, dflt)`. -/
def getD (d : Dict) (k : String) (dflt : Value) : Value := (lookupV d k).getD dflt

/-- Python `d[k] = v`. -/
def setKey : Dict → String → Value → Dict
  | [], k, v => [(k, v)]
  | (k₁, v₁) :: rest, k, v =>
    if k₁ = k then (k, v) :: rest else (k₁, v₁) :: setKey rest k v

/-- Model of `engine._split_authors`: split an author string on `;`/`,` into trimmed
non-empty names; an empty input gives `[]`, and when every segment trims to
empty the whole trimmed input is returned as a single name. -/
def splitAuthors (s : PyStr) : List PyStr :=
  if s = [] then []
  else
    let parts := ((splitSep s).map pyStrip).filter (fun p => !(p == []))
    if parts = [] then [pyStrip s] else parts

/-- The prefix test of `normalize_metadata`'s DOI branch: the trimmed DOI,
lower-cased, starts with `http://doi.org/`, `https://doi.org/` or `doi:`. -/
def doiPrefCond (d : PyStr) : Bool :=
  List.isPrefixOf (pys "http://doi.org/") (pyLower d) ||
  List.isPrefixOf (pys "https://doi.org/") (pyLower d) ||
  List.isPrefixOf (pys "doi:") (pyLower d)

/-- The strip steps of `normalize_metadata`'s DOI branch: remove the first
`DOI:` and the first `doi:` (case-sensitively), then, if `doi.org/` occurs
in the lower-cased remainder, keep the part after the first literal
(case-sensitive) `doi.org/`. -/
def doiStripSteps (d : PyStr) : PyStr :=
  let d1 := replaceFirst (replaceFirst d (pys "DOI:") []) (pys "doi:") []
  if containsSub (pyLower d1) (pys "doi.org/") then splitOnceAfter d1 (pys "doi.org/")
  else d1

/-- DOI normalization of `normalize_metadata` on a non-empty string: trim,
conditionally strip prefixes, then trim and lower-case the result. -/
def normDoiStr (s : PyStr) : PyStr :=
  let d := pyStrip s
  pyLower (pyStrip (if doiPrefCond d then doiStripSteps d else d))

/-- The `doi` field after `normalize_metadata`: the branch applies only to
non-empty strings; everything else passes through. -/
def normDoiVal (v : Value) : Value :=
  match v with
  | Value.str s => if s ≠ [] then Value.str (normDoiStr s) else v
  | _ => v

/-- The `pages` field after `normalize_metadata`: non-empty strings are
trimmed and dash-normalized; everything else passes through. -/
def normPagesVal (v : Value) : Value :=
  match v with
  | Value.str s => if s ≠ [] then Value.str (subDash (pyStrip s)) else v
  | _ => v

/-- The `authors` field after `normalize_metadata`: `author or authors`;
lists pass through, anything else is split as an author string. -/
def normAuthorsVal (md : Dict) : Value :=
  let af := pyOrV (getV md "author") (getV md "authors")
  if isListV af then af
  else Value.list (splitAuthors (asStrPy (pyOrV af (Value.str []))))

/-- Model of `engine.normalize_metadata`: canonicalize a raw metadata mapping into
the fixed twelve-field citation record. -/
def normalize_metadata (md : Dict) : Dict :=
  [("title", getD md "title" (Value.str [])),
   ("authors", normAuthorsVal md),
   ("year", getV md "year"),
   ("journal", getV md "journal"),
   ("publisher", getV md "publisher"),
   ("volume", getV md "volume"),
   ("issue", getV md "issue"),
   ("pages", normPagesVal (getV md "pages")),
   ("doi", normDoiVal (getV md "doi")),
   ("url", getV md "url"),
   ("raw_text", getV md "raw_text"),
   ("source_type", getV md "source_type")]

/-- Model of `engine.merge_metadata`: copy each incoming pair into the result only
when the current value at that key is not truthy and the incoming value is
truthy. -/
def merge_metadata (base extracted : Dict) : Dict :=
  List.foldl
    (fun m kv => if !truthy (getV m kv.1) && truthy kv.2 then setKey m kv.1 kv.2 else m)
    base extracted

/-- A character allowed by the DOI suffix class `[-._;()/:A-Z0-9]` under
`re.IGNORECASE` (so ASCII letters of both cases). -/
def doiAllowedChar (c : Char) : Bool :=
  c = '-' || c = '.' || c = '_' || c = ';' || c = '(' || c = ')' || c = '/' ||
  c = ':' || c.isDigit || c.isAlpha

/-- Model of `validators.DOI_REGEX.match`: `^10\.\d{4,9}/[-._;()/:A-Z0-9]+$` with
`re.IGNORECASE`; Python's `$` also accepts a single trailing newline. -/
def doiRegexMatch (s : PyStr) : Bool :=
  match s with
  | '1' :: '0' :: '.' :: rest =>
    let ds := rest.takeWhile Char.isDigit
    let tl := rest.drop ds.length
    decide (4 ≤ ds.length) && decide (ds.length ≤ 9) &&
    (match tl with
     | '/' :: cs =>
       let core := if cs.getLast? = Option.some '\n' then cs.dropLast else cs
       !(core == []) && core.all doiAllowedChar
     | _ => false)
  | _ => false

/-- Model of `validators.doi_syntax_is_valid`: falsy input fails; otherwise trim,
strip a `doi.org` URL prefix when present (the split itself is
case-sensitive), and match the DOI regex. -/
def doi_syntax_is_valid (doi : PyStr) : Bool :=
  if doi = [] then false
  else
    let d := pyStrip doi
    let d :=
      if List.isPrefixOf (pys "http://doi.org/") (pyLower d) ||
         List.isPrefixOf (pys "https://doi.org/") (pyLower d) then
        splitOnceAfter d (pys "doi.org/")
      else d
    doiRegexMatch d

/-- The URL scheme check of `validate`: `re.match(r"^https?://", url, re.I)`. -/
def urlHasScheme (u : PyStr) : Bool :=
  List.isPrefixOf (pys "http://") (pyLower u) || List.isPrefixOf (pys "https://") (pyLower u)

/-- The `errors` list built by `engine.validate` (its `suggestions` and
`confidence` outputs are independent of the errors and not modelled here);
the `source_type` and `style` arguments only ever influence suggestions. -/
def validate_errors (item : Dict) (sourceType style : Value) : List String :=
  (if truthy (getV item "title") then [] else ["Missing required field: title"]) ++
  (if truthy (getV item "year") then [] else ["Missing required field: year"]) ++
  (if truthy (getV item "doi") then
    (if doi_syntax_is_valid (pyStrip (pyStrOf (pyOrV (getV item "doi") (Value.str [])))) then []
     else ["Invalid DOI syntax."])
   else []) ++
  (if truthy (getV item "url") then
    (if urlHasScheme (pyStrip (pyStrOf (pyOrV (getV item "url") (Value.str [])))) then []
     else ["URL must start with http:// or https://"])
   else []) ++
  (if truthy (getV item "year") then
    (match pyInt (getV item "year") with
     | Option.none => ["Year must be numeric."]
     | Option.some y =>
       if y < 1500 ∨ y > 2100 then ["Year looks out of plausible range (1500–2100)."] else [])
   else [])

/-- The duplicate key of `engine.detect_duplicates`: lower-cased DOI, or
else the trimmed lower-cased title. -/
def dupKey (it : Dict) : PyStr :=
  pyOrS (pyLower (asStrPy (pyOrV (getV it "doi") (Value.str []))))
        (pyLower (pyStrip (asStrPy (pyOrV (getV it "title") (Value.str [])))))

/-- Does a record lack both duplicate keys (no DOI, no non-empty trimmed
title)? Such records bypass deduplication. -/
def keyless (it : Dict) : Bool := dupKey it == []

/-- Loop of `engine.detect_duplicates` with its `seen` set of keys. -/
def detectGo : List PyStr → List Dict → List Dict
  | _, [] => []
  | seen, it :: rest =>
    if keyless it then it :: detectGo seen rest
    else if dupKey it ∈ seen then detectGo seen rest
    else it :: detectGo (dupKey it :: seen) rest

/-- Model of `engine.detect_duplicates`: keep the first record for each key; records
without a key are always kept. -/
def detect_duplicates (items : List Dict) : List Dict := detectGo [] items

/-- The manual fallback concatenation of `csl_engine.format_with_csl`
(lines 114-144): `Authors. Year. Title. Journal/Publisher. Volume(Issue).
Pages. DOI-or-URL.` joined with `". "`, omitting empty parts. -/
def cslFallbackFormat (item : Dict) : PyStr :=
  let authorsV := getV item "authors"
  let authors : List PyStr :=
    if truthy authorsV then listOfV authorsV
    else if truthy (getV item "author") then [asStrPy (getV item "author")] else []
  let authorStr := if authors ≠ [] then List.intercalate (pys ", ") authors else pys "Unknown"
  let year := pyStrOf (pyOrV (getV item "year") (Value.str (pys "n.d.")))
  let title := pyStrip (asStrPy (pyOrV (getV item "title") (Value.str [])))
  let journal := pyStrip (asStrPy (pyOrV (getV item "journal") (pyOrV (getV item "publisher") (Value.str []))))
  let vol := pyStrip (pyStrOf (pyOrV (getV item "volume") (Value.str [])))
  let iss := pyStrip (pyStrOf (pyOrV (getV item "issue") (Value.str [])))
  let pages := pyStrip (pyStrOf (pyOrV (getV item "pages") (Value.str [])))
  let doi := getV item "doi"
  let url := getV item "url"
  let volIss := vol ++ (if iss ≠ [] then (pys "(" ++ iss ++ pys ")") else [])
  let tl :=
    if truthy doi then pys "https://doi.org/" ++ pyStrip (replaceAll (pyStrOf doi) (pys "https://doi.org/") [])
    else if truthy url then asStrPy url
    else []
  let parts :=
    (if authorStr ≠ [] then [authorStr] else []) ++
    (if year ≠ [] then [year] else []) ++
    (if title ≠ [] then [title] else []) ++
    (if journal ≠ [] then [journal] else []) ++
    (if volIss ≠ [] then [volIss] else []) ++
    (if pages ≠ [] then [pages] else []) ++
    (if tl ≠ [] then [tl] else [])
  List.intercalate (pys ". ") (parts.filter (fun p => !(p == [])))

/-- Model of `csl_engine.format_with_csl`.  The environment-dependent parts are
parameters: `citeprocAvailable` models the import guard
`CITEPROC_AVAILABLE`, `styleFileFound` models `os.path.exists(style_path)`,
and `cslRender` is the outcome of the citeproc `try` block (`Option.none`
when citeproc raised, in which case the manual fallback is used).  When the
engine is not installed the function raises `RuntimeError`; when the style
file is missing it raises `FileNotFoundError`; both modelled as
`Except.error`. -/
def format_with_csl (citeprocAvailable styleFileFound : Bool) (cslRender : Option PyStr)
    (item : Dict) : Except String PyStr :=
  if !citeprocAvailable then Except.error "citeproc-py not installed"
  else if !styleFileFound then Except.error "CSL style file not found"
  else
    match cslRender with
    | Option.some s => Except.ok s
    | Option.none => Except.ok (cslFallbackFormat item)

/-- A row of the `citations` table, restricted to the columns the
duplicate check and the saved-output claims read (`authors`, `metadata`,
`user_id`, `created_at` are never consulted by them). -/
structure Row where
  doi : Value
  title : Value
  style : String
  formatted : PyStr
deriving DecidableEq

/-- Model of `ltm.save_citation`: append one row built from the item. -/
def save_citation (store : List Row) (item : Dict) (style : String) (formatted : PyStr) :
    List Row :=
  store ++ [{ doi := getV item "doi", title := getV item "title",
              style := style, formatted := formatted }]

/-- SQLite `TRIM` (default: strips space characters only). -/
def sqlTrim (s : PyStr) : PyStr :=
  List.rdropWhile (fun c => c = ' ') (List.dropWhile (fun c => c = ' ') s)

/-- One row-column comparison of `ltm.exists_duplicate`:
`LOWER(TRIM(col)) = q`; a NULL or non-string column never matches. -/
def rowColMatches (col : Value) (q : PyStr) : Bool :=
  match col with
  | Value.str s => pyLower (sqlTrim s) == q
  | _ => false

/-- Model of `ltm.exists_duplicate`: case-insensitive trimmed match of the given
DOI or title against the stored rows (falsy arguments are skipped). -/
def exists_duplicate (store : List Row) (doi title : Value) : Bool :=
  (if truthy doi then store.any (fun r => rowColMatches r.doi (pyLower (pyStrip (asStrPy doi))))
   else false) ||
  (if truthy title then store.any (fun r => rowColMatches r.title (pyLower (pyStrip (asStrPy title))))
   else false)

/-- The emptiness guard of `engine.save_to_ltm`: the record must have a
title with a non-empty `str(...).strip()`, or a truthy doi, url or
raw_text, for the save to proceed. -/
def saveGuard (item : Dict) : Bool :=
  (truthy (getV item "title") && !(pyStrip (pyStrOf (getV item "title")) == [])) ||
  truthy (getV item "doi") || truthy (getV item "url") || truthy (getV item "raw_text")

/-- Python `x or None` as applied to the duplicate-check arguments. -/
def orNoneV (v : Value) : Value := if truthy v then v else Value.none

/-- The fallback `formatted` string of `engine.save_to_ltm` (lines
286-302): raw text when present, else `Title — (Year) — Journal/Publisher
— DOI: d` with empty parts omitted. -/
def saveFallbackFormatted (item : Dict) : PyStr :=
  let raw := pyStrip (pyStrOf (pyOrV (getV item "raw_text") (Value.str [])))
  if raw ≠ [] then raw
  else
    let title := pyStrip (pyStrOf (pyOrV (getV item "title") (Value.str (pys "Untitled"))))
    let year := pyStrOf (pyOrV (getV item "year") (Value.str (pys "n.d.")))
    let journal := pyStrip (pyStrOf (pyOrV (getV item "journal") (pyOrV (getV item "publisher") (Value.str []))))
    let doi := pyStrip (pyStrOf (pyOrV (getV item "doi") (Value.str [])))
    let pieces := [title] ++
      (if year ≠ [] ∧ year ≠ pys "n.d." then [pys "(" ++ year ++ pys ")"] else []) ++
      (if journal ≠ [] then [journal] else []) ++
      (if doi ≠ [] then [pys "DOI: " ++ doi] else [])
    if pieces.length > 1 then List.intercalate (pys " — ") pieces else title

/-- Model of `engine.save_to_ltm` acting on the store.  `cslResult` is the outcome
of the `try: formatted = format_with_csl(...)` block (`Option.none` when it
raised, which the code turns into `""`).  Skips empty records; skips
duplicates unless `force_save`; otherwise appends one row whose formatted
text falls back to `saveFallbackFormatted` when the CSL text is blank. -/
def save_to_ltm (cslResult : Option PyStr) (item : Dict) (style : String) (force_save : Bool)
    (store : List Row) : List Row :=
  if !saveGuard item then store
  else if !force_save &&
      exists_duplicate store (orNoneV (getV item "doi")) (orNoneV (getV item "title")) then store
  else
    let f0 := cslResult.getD []
    let formatted := if pyStrip f0 = [] then saveFallbackFormatted item else f0
    save_citation store item (if style = "" then "APA" else style) formatted

theorem isPrefixOf_append_self (p r : PyStr) : List.isPrefixOf p (p ++ r) = true := by
  induction p with
  | nil => simp [List.isPrefixOf]
  | cons c t ih => simpa [List.isPrefixOf] using ih

theorem replaceFirst_not_contains (s pat rep : PyStr) (h : containsSub s pat = false) :
    replaceFirst s pat rep = s := by
  induction s with
  | nil =>
    simp only [containsSub] at h
    simp [replaceFirst, h]
  | cons c t ih =>
    rw [containsSub, Bool.or_eq_false_iff] at h
    simp [replaceFirst, h.1, ih h.2]

theorem replaceFirst_pre (pat r : PyStr) (h : pat ≠ []) : replaceFirst (pat ++ r) pat [] = r := by
  cases pat with
  | nil => exact absurd rfl h
  | cons c t =>
    have hp : List.isPrefixOf (c :: t) (c :: (t ++ r)) = true := isPrefixOf_append_self (c :: t) r
    have hd : List.drop (c :: t).length (c :: (t ++ r)) = r := List.drop_left (c :: t) r
    simp [replaceFirst, hp, hd]

theorem containsSub_append (x s pat : PyStr) (h : List.isPrefixOf pat s = true) :
    containsSub (x ++ s) pat = true := by
  induction x with
  | nil =>
    cases s with
    | nil => simpa [containsSub] using h
    | cons c t => simp [containsSub, h]
  | cons c t ih => simp [containsSub, ih]

theorem getV_setKey_ne (d : Dict) (k k' : String) (v : Value) (h : k' ≠ k) :
    getV (setKey d k' v) k = getV d k := by
  induction d with
  | nil => simp [setKey, getV, lookupV, h]
  | cons kv rest ih =>
    obtain ⟨k₁, v₁⟩ := kv
    by_cases h1 : k₁ = k'
    · subst h1
      simp [setKey, getV, lookupV, h]
    · rw [setKey, if_neg h1]
      by_cases h2 : k₁ = k
      · simp [getV, lookupV, h2]
      · simp only [getV, lookupV, if_neg h2]
        exact ih

theorem mergeFold_preserves (k : String) (l : List (String × Value)) :
    ∀ (m : Dict), truthy (getV m k) = true →
    getV (List.foldl
      (fun m kv => if !truthy (getV m kv.1) && truthy kv.2 then setKey m kv.1 kv.2 else m)
      m l) k = getV m k := by
  induction l with
  | nil => intro m _; rfl
  | cons kv rest ih =>
    intro m hm
    obtain ⟨k₁, v₁⟩ := kv
    simp only [List.foldl_cons]
    by_cases hk : k₁ = k
    · subst hk
      simp only [hm, Bool.not_true, Bool.false_and, if_false]
      exact ih m hm
    · by_cases hc : (!truthy (getV m k₁) && truthy v₁) = true
      · rw [if_pos hc]
        have hg : getV (setKey m k₁ v₁) k = getV m k := getV_setKey_ne m k k₁ v₁ hk
        rw [ih (setKey m k₁ v₁) (by rw [hg]; exact hm), hg]
      · rw [if_neg (by simpa using hc)]
        exact ih m hm

/-- Claim C1: for every base record, incoming record and key `k`, if the
base has a truthy value at `k` then `merge_metadata base incoming` has that
same value at `k`; incoming values only land in keys at which the base has
no truthy value. -/
theorem C1_merge_never_overwrites_truthy (base extracted : Dict) (k : String)
    (h : truthy (getV base k) = true) :
    getV (merge_metadata base extracted) k = getV base k :=
  mergeFold_preserves k extracted base h

theorem C1_merge_never_overwrites_truthy_witness :
    truthy (getV [("title", Value.str (pys "Deep Learning"))] "title") = true ∧
    getV (merge_metadata [("title", Value.str (pys "Deep Learning"))]
      [("title", Value.str (pys "Other")), ("year", Value.int 2020)]) "title" =
      getV [("title", Value.str (pys "Deep Learning"))] "title" :=
  ⟨by decide, C1_merge_never_overwrites_truthy _ _ _ (by decide)⟩

theorem dropWhile_eq_self_of_prefix (p : Char → Bool) (l l' : List Char)
    (hl : List.dropWhile p l = l) (hp : l' <+: l) : List.dropWhile p l' = l' := by
  cases l' with
  | nil => rfl
  | cons c t =>
    obtain ⟨u, hu⟩ := hp
    have hc : p c = false := by
      by_contra hcc
      have hcc' : p c = true := by simpa using hcc
      rw [← hu, List.cons_append, List.dropWhile_cons_of_pos hcc'] at hl
      have hle := ((List.dropWhile_sublist p).length_le : (List.dropWhile p (t ++ u)).length ≤ (t ++ u).length)
      rw [hl] at hle
      simp at hle
    simp [List.dropWhile_cons_of_neg, hc]

theorem strip_left_clean (s : PyStr) : List.dropWhile pySpace (pyStrip s) = pyStrip s := by
  unfold pyStrip
  exact dropWhile_eq_self_of_prefix pySpace (List.dropWhile pySpace s) _
    (List.dropWhile_idempotent pySpace s)
    (List.rdropWhile_prefix pySpace (List.dropWhile pySpace s))

theorem strip_idem (s : PyStr) : pyStrip (pyStrip s) = pyStrip s := by
  conv_lhs => rw [pyStrip, strip_left_clean s]
  rw [pyStrip, List.rdropWhile_idempotent]

theorem char_toNat_ofNat {n : Nat} (h : n < 55296) : (Char.ofNat n).toNat = n := by
  have hv : n.isValidChar := Or.inl h
  rw [Char.ofNat, dif_pos hv]
  simp [Char.ofNatAux, Char.toNat, UInt32.toNat, BitVec.toNat_ofNatLt]

theorem pySpace_lowerChar (c : Char) : pySpace (pyLowerChar c) = pySpace c := by
  unfold pyLowerChar
  by_cases h : 65 ≤ c.toNat ∧ c.toNat ≤ 90
  · rw [if_pos h]
    have ht := char_toNat_ofNat (n := c.toNat + 32) (by omega)
    have h1 : pySpace (Char.ofNat (c.toNat + 32)) = false := by
      simp only [pySpace, ht]
      simp only [Bool.or_eq_false_iff, decide_eq_false_iff_not]
      omega
    have h2 : pySpace c = false := by
      simp only [pySpace]
      simp only [Bool.or_eq_false_iff, decide_eq_false_iff_not]
      omega
    rw [h1, h2]
  · rw [if_neg h]

theorem pyLowerChar_idem (c : Char) : pyLowerChar (pyLowerChar c) = pyLowerChar c := by
  unfold pyLowerChar
  by_cases h : 65 ≤ c.toNat ∧ c.toNat ≤ 90
  · rw [if_pos h]
    have ht := char_toNat_ofNat (n := c.toNat + 32) (by omega)
    rw [if_neg (by rw [ht]; omega)]
  · rw [if_neg h, if_neg h]

theorem lower_idem (s : PyStr) : pyLower (pyLower s) = pyLower s := by
  unfold pyLower
  rw [List.map_map]
  exact List.map_congr_left (fun c _ => pyLowerChar_idem c)

theorem dropWhile_lower_comm (s : PyStr) :
    List.dropWhile pySpace (pyLower s) = pyLower (List.dropWhile pySpace s) := by
  unfold pyLower
  rw [List.dropWhile_map]
  rw [show (pySpace ∘ pyLowerChar) = pySpace from funext pySpace_lowerChar]

theorem pyLower_reverse (t : PyStr) : (pyLower t).reverse = pyLower t.reverse := by
  unfold pyLower
  exact List.reverse_map pyLowerChar t

theorem rdropWhile_lower_comm (t : PyStr) :
    List.rdropWhile pySpace (pyLower t) = pyLower (List.rdropWhile pySpace t) := by
  unfold List.rdropWhile
  rw [pyLower_reverse, dropWhile_lower_comm, pyLower_reverse]

theorem strip_lower_comm (s : PyStr) : pyStrip (pyLower s) = pyLower (pyStrip s) := by
  unfold pyStrip
  rw [dropWhile_lower_comm, rdropWhile_lower_comm]

theorem normDoiStr_strip_fixed (s : PyStr) : pyStrip (normDoiStr s) = normDoiStr s := by
  simp only [normDoiStr]
  rw [strip_lower_comm, strip_idem]

theorem normDoiStr_lower_fixed (s : PyStr) : pyLower (normDoiStr s) = normDoiStr s := by
  simp only [normDoiStr]
  rw [lower_idem]

theorem getV_normalize_doi (md : Dict) :
    getV (normalize_metadata md) "doi" = normDoiVal (getV md "doi") := by
  simp [normalize_metadata, getV, lookupV]

theorem pyLower_append_doi (r : PyStr) :
    pyLower (pys "doi:" ++ r) = pys "doi:" ++ pyLower r := by
  simp only [pyLower, List.map_append]
  congr 1

theorem pyLower_append_DOI (r : PyStr) :
    pyLower (pys "DOI:" ++ r) = pys "doi:" ++ pyLower r := by
  simp only [pyLower, List.map_append]
  congr 1

theorem pyLower_append_https (r : PyStr) :
    pyLower (pys "https://doi.org/" ++ r) = pys "https://doi.org/" ++ pyLower r := by
  simp only [pyLower, List.map_append]
  congr 1

theorem doiPrefCond_doi (r : PyStr) : doiPrefCond (pys "doi:" ++ r) = true := by
  simp only [doiPrefCond, pyLower_append_doi]
  have t1 : List.isPrefixOf (pys "http://doi.org/") (pys "doi:" ++ pyLower r) = false := by
    simp [pys, List.isPrefixOf]
  have t2 : List.isPrefixOf (pys "https://doi.org/") (pys "doi:" ++ pyLower r) = false := by
    simp [pys, List.isPrefixOf]
  have t3 : List.isPrefixOf (pys "doi:") (pys "doi:" ++ pyLower r) = true :=
    isPrefixOf_append_self (pys "doi:") (pyLower r)
  rw [t1, t2, t3]
  rfl

theorem doiPrefCond_DOI (r : PyStr) : doiPrefCond (pys "DOI:" ++ r) = true := by
  simp only [doiPrefCond, pyLower_append_DOI]
  have t1 : List.isPrefixOf (pys "http://doi.org/") (pys "doi:" ++ pyLower r) = false := by
    simp [pys, List.isPrefixOf]
  have t2 : List.isPrefixOf (pys "https://doi.org/") (pys "doi:" ++ pyLower r) = false := by
    simp [pys, List.isPrefixOf]
  have t3 : List.isPrefixOf (pys "doi:") (pys "doi:" ++ pyLower r) = true :=
    isPrefixOf_append_self (pys "doi:") (pyLower r)
  rw [t1, t2, t3]
  rfl

theorem doiPrefCond_https (r : PyStr) : doiPrefCond (pys "https://doi.org/" ++ r) = true := by
  simp only [doiPrefCond, pyLower_append_https]
  have t1 : List.isPrefixOf (pys "http://doi.org/")
      (pys "https://doi.org/" ++ pyLower r) = false := by
    simp [pys, List.isPrefixOf]
  have t2 : List.isPrefixOf (pys "https://doi.org/")
      (pys "https://doi.org/" ++ pyLower r) = true :=
    isPrefixOf_append_self (pys "https://doi.org/") (pyLower r)
  rw [t1, t2]
  rfl

theorem normDoiStr_doi_exact (s r : PyStr) (hs : pyStrip s = pys "doi:" ++ r)
    (h1 : containsSub (pys "doi:" ++ r) (pys "DOI:") = false)
    (h2 : containsSub (pyLower r) (pys "doi.org/") = false) :
    normDoiStr s = pyLower (pyStrip r) := by
  have e1 : replaceFirst (pys "doi:" ++ r) (pys "DOI:") [] = pys "doi:" ++ r :=
    replaceFirst_not_contains _ _ _ h1
  have e2 : replaceFirst (pys "doi:" ++ r) (pys "doi:") [] = r :=
    replaceFirst_pre (pys "doi:") r (by decide)
  simp only [normDoiStr, hs, doiPrefCond_doi, if_true, doiStripSteps, e1, e2, h2,
    Bool.false_eq_true, if_false]

theorem splitAfter_https (r : PyStr) :
    splitOnceAfter (pys "https://doi.org/" ++ r) (pys "doi.org/") = r := by
  have h : splitAfterAux (pys "https://doi.org/" ++ r) (pys "doi.org/") = Option.some r := by
    simp [pys, splitAfterAux, List.isPrefixOf]
  rw [splitOnceAfter, h]
  rfl

theorem normDoiStr_DOI_exact (s r : PyStr) (hs : pyStrip s = pys "DOI:" ++ r)
    (h1 : containsSub r (pys "doi:") = false)
    (h2 : containsSub (pyLower r) (pys "doi.org/") = false) :
    normDoiStr s = pyLower (pyStrip r) := by
  have e1 : replaceFirst (pys "DOI:" ++ r) (pys "DOI:") [] = r :=
    replaceFirst_pre (pys "DOI:") r (by decide)
  have e2 : replaceFirst r (pys "doi:") [] = r := replaceFirst_not_contains _ _ _ h1
  simp only [normDoiStr, hs, doiPrefCond_DOI, if_true, doiStripSteps, e1, e2, h2,
    Bool.false_eq_true, if_false]

theorem normDoiStr_https_exact (s r : PyStr) (hs : pyStrip s = pys "https://doi.org/" ++ r)
    (h1 : containsSub (pys "https://doi.org/" ++ r) (pys "DOI:") = false)
    (h2 : containsSub (pys "https://doi.org/" ++ r) (pys "doi:") = false) :
    normDoiStr s = pyLower (pyStrip r) := by
  have e1 : replaceFirst (pys "https://doi.org/" ++ r) (pys "DOI:") [] =
      pys "https://doi.org/" ++ r := replaceFirst_not_contains _ _ _ h1
  have e2 : replaceFirst (pys "https://doi.org/" ++ r) (pys "doi:") [] =
      pys "https://doi.org/" ++ r := replaceFirst_not_contains _ _ _ h2
  have hassoc : pys "https://doi.org/" ++ pyLower r =
      pys "https://" ++ (pys "doi.org/" ++ pyLower r) := by
    rw [← List.append_assoc]
    congr 1
  have hc : containsSub (pyLower (pys "https://doi.org/" ++ r)) (pys "doi.org/") = true := by
    rw [pyLower_append_https, hassoc]
    exact containsSub_append _ _ _ (isPrefixOf_append_self _ _)
  have hsplit : splitOnceAfter (pys "https://doi.org/" ++ r) (pys "doi.org/") = r :=
    splitAfter_https r
  simp only [normDoiStr, hs, doiPrefCond_https, if_true, doiStripSteps, e1, e2, hc, hsplit]

theorem normDoiStr_id_of_no_doiPref (o : PyStr) (hst : pyStrip o = o) (hlo : pyLower o = o)
    (h1 : List.isPrefixOf (pys "http://doi.org/") o = false)
    (h2 : List.isPrefixOf (pys "https://doi.org/") o = false)
    (h3 : List.isPrefixOf (pys "doi:") o = false) :
    normDoiStr o = o := by
  have hcond : doiPrefCond o = false := by
    unfold doiPrefCond
    rw [hlo, h1, h2, h3]
    rfl
  simp only [normDoiStr]
  rw [hst, hcond]
  simp only [Bool.false_eq_true, if_false]
  rw [hst, hlo]

/-- Claim C3 as stated is false: the prefix *test* of `normalize_metadata`
is case-insensitive but the prefix *removal* is case-sensitive, so the
mixed-case prefix `Doi:` survives (lower-cased) instead of being stripped:
the DOI `Doi:10.1000/xyz` normalizes to `doi:10.1000/xyz`, not to the
claimed prefix-free `10.1000/xyz`. -/
theorem C3_counterexample :
    getV (normalize_metadata [("doi", Value.str (pys "Doi:10.1000/xyz"))]) "doi" =
      Value.str (pys "doi:10.1000/xyz") ∧
    pys "doi:10.1000/xyz" ≠ pys "10.1000/xyz" :=
  ⟨by decide, by decide⟩

/-- Claim C3, amended: for every raw mapping whose `doi` is a non-empty
string the normalized `doi` is trimmed and lower-cased, and the prefixes
are stripped when they occur in the exact source spellings: a leading
`doi:` or `DOI:` prefix (with no other `DOI:`/`doi:` occurrence and no
`doi.org/` in the remainder), or a lower-case `https://doi.org/` URL
prefix.  Prefixes in other case mixtures (such as `Doi:` or
`HTTPS://DOI.ORG/`) are lower-cased but not stripped. -/
theorem C3_doi_trim_lower_and_exact_prefix_strip :
    (∀ (md : Dict) (s : PyStr), getV md "doi" = Value.str s → s ≠ [] →
      getV (normalize_metadata md) "doi" = Value.str (normDoiStr s) ∧
      pyStrip (normDoiStr s) = normDoiStr s ∧ pyLower (normDoiStr s) = normDoiStr s) ∧
    (∀ (s r : PyStr), pyStrip s = pys "doi:" ++ r →
      containsSub (pys "doi:" ++ r) (pys "DOI:") = false →
      containsSub (pyLower r) (pys "doi.org/") = false →
      normDoiStr s = pyLower (pyStrip r)) ∧
    (∀ (s r : PyStr), pyStrip s = pys "DOI:" ++ r →
      containsSub r (pys "doi:") = false →
      containsSub (pyLower r) (pys "doi.org/") = false →
      normDoiStr s = pyLower (pyStrip r)) ∧
    (∀ (s r : PyStr), pyStrip s = pys "https://doi.org/" ++ r →
      containsSub (pys "https://doi.org/" ++ r) (pys "DOI:") = false →
      containsSub (pys "https://doi.org/" ++ r) (pys "doi:") = false →
      normDoiStr s = pyLower (pyStrip r)) ∧
    normDoiStr (pys "Doi:10.1000/xyz") = pys "doi:10.1000/xyz" := by
  refine ⟨?_, normDoiStr_doi_exact, normDoiStr_DOI_exact, normDoiStr_https_exact, by decide⟩
  intro md s h hne
  refine ⟨?_, normDoiStr_strip_fixed s, normDoiStr_lower_fixed s⟩
  rw [getV_normalize_doi, h]
  simp [normDoiVal, hne]

theorem C3_doi_trim_lower_and_exact_prefix_strip_witness :
    getV (normalize_metadata [("doi", Value.str (pys " DOI:10.5555/ABC "))]) "doi" =
      Value.str (normDoiStr (pys " DOI:10.5555/ABC ")) ∧
    normDoiStr (pys "doi:10.1234/ab") = pyLower (pyStrip (pys "10.1234/ab")) :=
  ⟨(C3_doi_trim_lower_and_exact_prefix_strip.1 _ _ (by decide) (by decide)).1,
   C3_doi_trim_lower_and_exact_prefix_strip.2.1 (pys "doi:10.1234/ab") (pys "10.1234/ab")
     (by decide) (by decide) (by decide)⟩

/-- Claim C4 as stated is false: normalization of the DOI
`Doi:10.1000/xyz` yields `doi:10.1000/xyz`, and feeding that output back
through `normalize_metadata` strips the now exactly lower-case `doi:`
prefix, yielding the different value `10.1000/xyz`. -/
theorem C4_counterexample :
    getV (normalize_metadata [("doi", Value.str (pys "Doi:10.1000/xyz"))]) "doi" =
      Value.str (pys "doi:10.1000/xyz") ∧
    getV (normalize_metadata [("doi", Value.str (pys "doi:10.1000/xyz"))]) "doi" =
      Value.str (pys "10.1000/xyz") ∧
    Value.str (pys "10.1000/xyz") ≠ Value.str (pys "doi:10.1000/xyz") :=
  ⟨by decide, by decide, by decide⟩

/-- Claim C4, amended: DOI normalization is idempotent for every mapping
whose normalized `doi` does not itself start with one of the recognized
prefixes `doi:`, `http://doi.org/` or `https://doi.org/` (the normalized
value is already trimmed and lower-case, so only a surviving prefix - the
residue of a mixed-case prefix in the input - can change on a second
pass). -/
theorem C4_doi_normalization_idempotent_amended (md : Dict) (s : PyStr)
    (h : getV md "doi" = Value.str s)
    (h1 : List.isPrefixOf (pys "doi:") (normDoiStr s) = false)
    (h2 : List.isPrefixOf (pys "http://doi.org/") (normDoiStr s) = false)
    (h3 : List.isPrefixOf (pys "https://doi.org/") (normDoiStr s) = false) :
    getV (normalize_metadata [("doi", getV (normalize_metadata md) "doi")]) "doi" =
      getV (normalize_metadata md) "doi" := by
  rw [getV_normalize_doi, getV_normalize_doi, h]
  by_cases hs : s = []
  · subst hs
    decide
  · have ho : normDoiVal (Value.str s) = Value.str (normDoiStr s) := by
      simp [normDoiVal, hs]
    rw [ho]
    have hg : getV [("doi", Value.str (normDoiStr s))] "doi" = Value.str (normDoiStr s) := by
      simp [getV, lookupV]
    rw [hg]
    by_cases ho2 : normDoiStr s = []
    · simp [normDoiVal, ho2]
    · have hid : normDoiStr (normDoiStr s) = normDoiStr s :=
        normDoiStr_id_of_no_doiPref (normDoiStr s) (normDoiStr_strip_fixed s)
          (normDoiStr_lower_fixed s) h2 h3 h1
      simp [normDoiVal, ho2, hid]

theorem C4_doi_normalization_idempotent_amended_witness :
    getV (normalize_metadata
      [("doi", getV (normalize_metadata [("doi", Value.str (pys " 10.1000/XYZ "))]) "doi")])
      "doi" =
      getV (normalize_metadata [("doi", Value.str (pys " 10.1000/XYZ "))]) "doi" :=
  C4_doi_normalization_idempotent_amended [("doi", Value.str (pys " 10.1000/XYZ "))]
    (pys " 10.1000/XYZ ") (by decide) (by decide) (by decide) (by decide)

theorem getV_normalize_authors (md : Dict) :
    getV (normalize_metadata md) "authors" = normAuthorsVal md := by
  simp [normalize_metadata, getV, lookupV]

/-- Claim C7 as stated is false: for the author string `" "` (truthy, but
with no non-empty segment) `_split_authors` falls back to
`[author_str.strip()]` and `normalize_metadata` returns one author - the
empty string - although the number of non-empty trimmed segments is 0. -/
theorem C7_counterexample :
    getV (normalize_metadata [("author", Value.str (pys " "))]) "authors" =
      Value.list [[]] ∧
    ((splitSep (pys " ")).map pyStrip).filter (fun p => !(p == [])) = [] :=
  ⟨by decide, by decide⟩

/-- Claim C7, amended: for a non-empty raw author string in the singular
`author` field, when at least one `;`/`,` segment is non-empty after
trimming, the authors list is exactly the in-order list of trimmed
non-empty segments (whose length is the count of non-empty segments); when
every segment trims to empty, the code instead returns the single-element
list holding the trimmed input. -/
theorem C7_author_split_amended (md : Dict) (s : PyStr)
    (h : getV md "author" = Value.str s) (hne : s ≠ []) :
    (((splitSep s).map pyStrip).filter (fun p => !(p == [])) ≠ [] →
      getV (normalize_metadata md) "authors" =
        Value.list (((splitSep s).map pyStrip).filter (fun p => !(p == [])))) ∧
    (((splitSep s).map pyStrip).filter (fun p => !(p == [])) = [] →
      getV (normalize_metadata md) "authors" = Value.list [pyStrip s]) ∧
    (((splitSep s).map pyStrip).filter (fun p => !(p == []))).length =
      ((splitSep s).map pyStrip).countP (fun p => !(p == [])) := by
  have hv : normAuthorsVal md = Value.list (splitAuthors s) := by
    simp [normAuthorsVal, pyOrV, h, truthy, hne, isListV, asStrPy]
  rw [getV_normalize_authors, hv]
  have hsa : splitAuthors s =
      if ((splitSep s).map pyStrip).filter (fun p => !(p == [])) = []
      then [pyStrip s] else ((splitSep s).map pyStrip).filter (fun p => !(p == [])) := by
    unfold splitAuthors
    rw [if_neg hne]
  refine ⟨?_, ?_, (List.countP_eq_length_filter _ _).symm⟩
  · intro hp
    rw [hsa, if_neg hp]
  · intro hp
    rw [hsa, if_pos hp]

theorem C7_author_split_amended_witness :
    getV (normalize_metadata [("author", Value.str (pys "A B; C D, ; E F"))]) "authors" =
      Value.list [pys "A B", pys "C D", pys "E F"] := by
  have h := (C7_author_split_amended [("author", Value.str (pys "A B; C D, ; E F"))]
    (pys "A B; C D, ; E F") (by decide) (by decide)).1 (by decide)
  rw [h]
  decide

/-- Claim C8 as stated is false: a missing `title` does not stay absent;
`normalize_metadata` defaults it to the empty string (`md.get("title", "")`). -/
theorem C8_counterexample :
    lookupV ([] : Dict) "title" = Option.none ∧
    getV (normalize_metadata []) "title" = Value.str [] ∧
    Value.str [] ≠ Value.none :=
  ⟨rfl, by decide, by decide⟩

/-- Claim C8, amended: the result of `normalize_metadata` has the fixed
twelve-field shape; the fields `year`, `journal`, `publisher`, `volume`,
`issue`, `url`, `raw_text` and `source_type` pass through unchanged (with
a missing key read as `None`), while `title` passes through only when the
key is present and is defaulted to the empty string when it is missing. -/
theorem C8_passthrough_amended (md : Dict) :
    (∀ k, k ∈ (["year", "journal", "publisher", "volume", "issue", "url", "raw_text",
        "source_type"] : List String) →
      getV (normalize_metadata md) k = getV md k) ∧
    (lookupV md "title" = Option.none → getV (normalize_metadata md) "title" = Value.str []) ∧
    (∀ v, lookupV md "title" = Option.some v → getV (normalize_metadata md) "title" = v) := by
  refine ⟨?_, ?_, ?_⟩
  · intro k hk
    fin_cases hk <;> simp [normalize_metadata, getV, lookupV]
  · intro h
    simp [normalize_metadata, getV, getD, lookupV, h]
  · intro v h
    simp [normalize_metadata, getV, getD, lookupV, h]

theorem C8_passthrough_amended_witness :
    getV (normalize_metadata [("year", Value.int 1999)]) "year" = Value.int 1999 ∧
    getV (normalize_metadata [("year", Value.int 1999)]) "title" = Value.str [] := by
  constructor
  · have h := (C8_passthrough_amended [("year", Value.int 1999)]).1 "year" (by decide)
    rw [h]
    decide
  · exact (C8_passthrough_amended [("year", Value.int 1999)]).2.1 (by decide)

/-- Claim C5: `validate`'s error list contains
`"Missing required field: title"` exactly when the record's title is falsy,
whatever the other fields, the source type and the style. -/
theorem C5_missing_title_error_iff (item : Dict) (st sty : Value) :
    ("Missing required field: title" ∈ validate_errors item st sty) ↔
      truthy (getV item "title") = false := by
  unfold validate_errors
  have h2 : "Missing required field: title" ∉
      (if truthy (getV item "year") then [] else ["Missing required field: year"]) := by
    split <;> simp
  have h3 : "Missing required field: title" ∉
      (if truthy (getV item "doi") then
        (if doi_syntax_is_valid (pyStrip (pyStrOf (pyOrV (getV item "doi") (Value.str [])))) then []
         else ["Invalid DOI syntax."])
       else []) := by
    split <;> (try split) <;> simp
  have h4 : "Missing required field: title" ∉
      (if truthy (getV item "url") then
        (if urlHasScheme (pyStrip (pyStrOf (pyOrV (getV item "url") (Value.str [])))) then []
         else ["URL must start with http:// or https://"])
       else []) := by
    split <;> (try split) <;> simp
  have h5 : "Missing required field: title" ∉
      (if truthy (getV item "year") then
        (match pyInt (getV item "year") with
         | Option.none => ["Year must be numeric."]
         | Option.some y =>
           if y < 1500 ∨ y > 2100 then ["Year looks out of plausible range (1500–2100)."] else [])
       else []) := by
    split <;> (try split) <;> (try split) <;> simp
  simp only [List.mem_append]
  constructor
  · rintro ((((hm | hm) | hm) | hm) | hm)
    · by_cases ht : truthy (getV item "title")
      · rw [if_pos ht] at hm
        simp at hm
      · simpa using ht
    · exact absurd hm h2
    · exact absurd hm h3
    · exact absurd hm h4
    · exact absurd hm h5
  · intro h
    left; left; left; left
    rw [if_neg (by simp [h])]
    simp

/-- Claim C6: for every record whose `doi` is a non-empty string, `validate`
adds the error `"Invalid DOI syntax."` exactly when `doi_syntax_is_valid`
rejects the stripped DOI (the `^10\.\d{4,9}/[-._;()/:A-Z0-9]+$` check of
`validators.py`); in particular `10.1000/xyz123` passes the check and
`not-a-doi` fails it. -/
theorem C6_invalid_doi_error_iff :
    (∀ (item : Dict) (st sty : Value) (s : PyStr), getV item "doi" = Value.str s → s ≠ [] →
      (("Invalid DOI syntax." ∈ validate_errors item st sty) ↔
        doi_syntax_is_valid (pyStrip s) = false)) ∧
    doi_syntax_is_valid (pys "10.1000/xyz123") = true ∧
    doi_syntax_is_valid (pys "not-a-doi") = false := by
  refine ⟨?_, by decide, by decide⟩
  intro item st sty s hdoi hne
  unfold validate_errors
  have htr : truthy (getV item "doi") = true := by
    rw [hdoi]
    simp [truthy, hne]
  have hval : pyStrOf (pyOrV (getV item "doi") (Value.str [])) = s := by
    rw [hdoi]
    simp [pyOrV, truthy, hne, pyStrOf]
  have h1 : "Invalid DOI syntax." ∉
      (if truthy (getV item "title") then [] else ["Missing required field: title"]) := by
    split <;> simp
  have h2 : "Invalid DOI syntax." ∉
      (if truthy (getV item "year") then [] else ["Missing required field: year"]) := by
    split <;> simp
  have h4 : "Invalid DOI syntax." ∉
      (if truthy (getV item "url") then
        (if urlHasScheme (pyStrip (pyStrOf (pyOrV (getV item "url") (Value.str [])))) then []
         else ["URL must start with http:// or https://"])
       else []) := by
    split <;> (try split) <;> simp
  have h5 : "Invalid DOI syntax." ∉
      (if truthy (getV item "year") then
        (match pyInt (getV item "year") with
         | Option.none => ["Year must be numeric."]
         | Option.some y =>
           if y < 1500 ∨ y > 2100 then ["Year looks out of plausible range (1500–2100)."] else [])
       else []) := by
    split <;> (try split) <;> (try split) <;> simp
  simp only [List.mem_append, htr, hval, if_true]
  constructor
  · rintro ((((hm | hm) | hm) | hm) | hm)
    · exact absurd hm h1
    · exact absurd hm h2
    · by_cases hd : doi_syntax_is_valid (pyStrip s)
      · rw [if_pos hd] at hm
        simp at hm
      · simpa using hd
    · exact absurd hm h4
    · exact absurd hm h5
  · intro h
    left; left; right
    rw [if_neg (by simp [h])]
    simp

theorem C6_invalid_doi_error_iff_witness :
    ("Invalid DOI syntax." ∈
      validate_errors [("doi", Value.str (pys "not-a-doi"))] Value.none Value.none) ∧
    ¬ ("Invalid DOI syntax." ∈
      validate_errors [("doi", Value.str (pys "10.1000/xyz123"))] Value.none Value.none) := by
  constructor
  · exact (C6_invalid_doi_error_iff.1 [("doi", Value.str (pys "not-a-doi"))]
      Value.none Value.none (pys "not-a-doi") (by decide) (by decide)).mpr (by decide)
  · intro hmem
    have hd := (C6_invalid_doi_error_iff.1 [("doi", Value.str (pys "10.1000/xyz123"))]
      Value.none Value.none (pys "10.1000/xyz123") (by decide) (by decide)).mp hmem
    exact absurd hd (by decide)

/-- Claim C2 as stated is false: when the CSL engine is unavailable
(`CITEPROC_AVAILABLE` is false), `format_with_csl` raises `RuntimeError`
("citeproc-py not installed") instead of returning the fallback rendering,
also for the record `{title: X, year: 2020, authors: [A B]}` with style
APA. -/
theorem C2_counterexample :
    format_with_csl false true Option.none
      [("title", Value.str (pys "X")), ("year", Value.int 2020),
       ("authors", Value.list [pys "A B"])] =
      Except.error "citeproc-py not installed" := rfl

/-- Claim C2, amended: with the engine missing, `format_with_csl` raises
for every record; the manual fixed-order fallback runs only when an
exception is thrown during CSL rendering itself (engine present, style
file found), and for the record `{title: X, year: 2020, authors: [A B]}`
it then returns the non-empty string `A B. 2020. X`, which contains
`2020` and `X`. -/
theorem C2_render_fallback_amended :
    (∀ (item : Dict) (styleFound : Bool) (render : Option PyStr),
      format_with_csl false styleFound render item =
        Except.error "citeproc-py not installed") ∧
    format_with_csl true true Option.none
      [("title", Value.str (pys "X")), ("year", Value.int 2020),
       ("authors", Value.list [pys "A B"])] = Except.ok (pys "A B. 2020. X") ∧
    containsSub (pys "A B. 2020. X") (pys "2020") = true ∧
    containsSub (pys "A B. 2020. X") (pys "X") = true ∧
    pys "A B. 2020. X" ≠ [] := by
  refine ⟨fun item styleFound render => rfl, ?_, by decide, by decide, by decide⟩
  show (Except.ok (cslFallbackFormat
      [("title", Value.str (pys "X")), ("year", Value.int 2020),
       ("authors", Value.list [pys "A B"])]) : Except String PyStr) = _
  rw [show cslFallbackFormat
      [("title", Value.str (pys "X")), ("year", Value.int 2020),
       ("authors", Value.list [pys "A B"])] = pys "A B. 2020. X" from by decide]

/-- Claim C9: an all-empty record (title, doi, url, raw_text each absent or
the empty string) is never persisted; without `force_save`, a record whose
doi or title already matches the store case-insensitively after trimming is
not persisted either; and a record passing the emptiness guard that is
forced or duplicate-free appends exactly one row. -/
theorem C9_save_to_ltm_guards :
    (∀ (cslResult : Option PyStr) (item : Dict) (style : String) (force : Bool)
        (store : List Row),
      (getV item "title" = Value.none ∨ getV item "title" = Value.str []) →
      (getV item "doi" = Value.none ∨ getV item "doi" = Value.str []) →
      (getV item "url" = Value.none ∨ getV item "url" = Value.str []) →
      (getV item "raw_text" = Value.none ∨ getV item "raw_text" = Value.str []) →
      save_to_ltm cslResult item style force store = store) ∧
    (∀ (cslResult : Option PyStr) (item : Dict) (style : String) (store : List Row),
      exists_duplicate store (orNoneV (getV item "doi")) (orNoneV (getV item "title")) = true →
      save_to_ltm cslResult item style false store = store) ∧
    (∀ (cslResult : Option PyStr) (item : Dict) (style : String) (force : Bool)
        (store : List Row),
      saveGuard item = true →
      (force = true ∨ exists_duplicate store (orNoneV (getV item "doi"))
        (orNoneV (getV item "title")) = false) →
      (save_to_ltm cslResult item style force store).length = store.length + 1) := by
  refine ⟨?_, ?_, ?_⟩
  · intro cslResult item style force store h1 h2 h3 h4
    have t1 : truthy (getV item "title") = false := by
      rcases h1 with h | h <;> rw [h] <;> rfl
    have t2 : truthy (getV item "doi") = false := by
      rcases h2 with h | h <;> rw [h] <;> rfl
    have t3 : truthy (getV item "url") = false := by
      rcases h3 with h | h <;> rw [h] <;> rfl
    have t4 : truthy (getV item "raw_text") = false := by
      rcases h4 with h | h <;> rw [h] <;> rfl
    have hguard : saveGuard item = false := by
      unfold saveGuard
      rw [t1, t2, t3, t4]
      rfl
    simp [save_to_ltm, hguard]
  · intro cslResult item style store hdup
    by_cases hg : saveGuard item
    · simp [save_to_ltm, hg, hdup]
    · simp [save_to_ltm, hg]
  · intro cslResult item style force store hg h2
    rcases h2 with hf | hd
    · subst hf
      simp [save_to_ltm, hg, save_citation]
    · simp [save_to_ltm, hg, hd, save_citation]

theorem C9_save_to_ltm_guards_witness :
    save_to_ltm Option.none [] "APA" false [] = [] ∧
    (save_to_ltm Option.none [("title", Value.str (pys "T"))] "APA" false []).length = 0 + 1 :=
  ⟨C9_save_to_ltm_guards.1 Option.none [] "APA" false []
      (Or.inl rfl) (Or.inl rfl) (Or.inl rfl) (Or.inl rfl),
   C9_save_to_ltm_guards.2.2 Option.none [("title", Value.str (pys "T"))] "APA" false []
      (by decide) (Or.inr (by decide))⟩

theorem detectGo_filter_keyless (l : List Dict) :
    ∀ seen, (detectGo seen l).filter keyless = l.filter keyless := by
  induction l with
  | nil => intro seen; rfl
  | cons it rest ih =>
    intro seen
    unfold detectGo
    by_cases hk : keyless it
    · rw [if_pos hk]
      simp [List.filter_cons, hk, ih seen]
    · rw [if_neg hk]
      by_cases hs : dupKey it ∈ seen
      · rw [if_pos hs, ih seen]
        simp [List.filter_cons, hk]
      · rw [if_neg hs]
        simp [List.filter_cons, hk, ih]

/-- Claim C10: `detect_duplicates` never removes a record that has neither
a DOI nor a non-empty trimmed title: the keyless records of the output are
exactly those of the input, in order and with multiplicity, so identical
keyless records survive as duplicates.  (The hypothesis restricts `doi` /
`title` to the string-or-None shapes on which the Python expression is
defined.) -/
theorem C10_detect_duplicates_keeps_keyless (items : List Dict)
    (hok : ∀ it ∈ items,
      isStrOrNone (getV it "doi") = true ∧ isStrOrNone (getV it "title") = true) :
    (detect_duplicates items).filter keyless = items.filter keyless :=
  detectGo_filter_keyless items []

theorem C10_detect_duplicates_keeps_keyless_witness :
    (detect_duplicates
      [[("doi", Value.str (pys "10.1/a"))], [("doi", Value.str (pys "10.1/A"))],
       [("title", Value.str (pys " "))], [("title", Value.str (pys " "))]]).filter keyless =
    ([[("doi", Value.str (pys "10.1/a"))], [("doi", Value.str (pys "10.1/A"))],
       [("title", Value.str (pys " "))], [("title", Value.str (pys " "))]] :
        List Dict).filter keyless :=
  C10_detect_duplicates_keeps_keyless
    [[("doi", Value.str (pys "10.1/a"))], [("doi", Value.str (pys "10.1/A"))],
     [("title", Value.str (pys " "))], [("title", Value.str (pys " "))]]
    (by decide)
